import Mathlib

/-!
Verification of the quarterback career-stats scraper (`qb.py`).

The development shallowly embeds the core pipeline of `qb.py`:
`slugify`, the candidate-identifier generation and HTTP retry loop of
`fetch_passing_table`, the two-pass table location (live table vs. a
table hidden inside an HTML comment in the `div_passing_standard`
container), `extract_career_row`, and the batch merge of
`batch_generate`.

Strings are modelled as lists of characters (`Str`).  Python
whitespace handling (`str.strip`, the regex class `[\s_]`) is modelled
over the ASCII whitespace characters plus NBSP, which is what the
inputs in question contain.  `pandas` and `BeautifulSoup` operations
that the code relies on are modelled by explicit functions: HTML
documents are a tree of elements / tables / comments / text, a table
element directly carries the tabular data that `pd.read_html` would
recover from it, and `pd.to_numeric(errors='coerce')` is a decimal
parser returning `none` (NaN) on unparsable cells.
-/

abbrev Str := List Char

deriving instance DecidableEq for Except

/-- Python whitespace for `str.strip()` and the regex class `\s`
(ASCII whitespace plus the no-break space). -/
def isPySpace (c : Char) : Bool :=
  c = ' ' || c = '\t' || c = '\n' || c = '\r' ||
  c = '\x0b' || c = '\x0c' || c = '\xa0'

/-- `s.strip()`: drop leading and trailing whitespace. -/
def pyStrip (s : Str) : Str :=
  ((s.dropWhile isPySpace).reverse.dropWhile isPySpace).reverse

/-- A raw table as recovered by `pd.read_html`: a header row of column
names and the data rows, all cells as text. -/
structure DFrame where
  header : List Str
  rows : List (List Str)
deriving Repr, DecidableEq

/-- The characters deleted from header cells by
`re.sub(r"[â€\xa0*#]", "", col)` in `extract_career_row` (the first
three are the mis-decoded UTF-8 bytes of a dagger). -/
def isBadHeaderChar (c : Char) : Bool :=
  c = 'â' || c = '€' || c = ' ' || c = '*' || c = '#'

/-- Header cleaning: `re.sub(r"[â€\xa0*#]", "", col).strip()`. -/
def cleanCol (s : Str) : Str :=
  pyStrip (s.filter (fun c => !(isBadHeaderChar c)))

def isDigitCh (c : Char) : Bool := '0' ≤ c && c ≤ '9'

def digitsVal (l : Str) : Nat :=
  l.foldl (fun n c => 10 * n + (c.toNat - ('0').toNat)) 0

/-- Parse an unsigned decimal numeral (digits with an optional single
decimal point; at least one digit). -/
def parseUnsigned (s : Str) : Option Rat :=
  let intPart := s.takeWhile isDigitCh
  match s.dropWhile isDigitCh with
  | [] => if intPart.isEmpty then none else some ((digitsVal intPart : Nat) : Rat)
  | '.' :: frac =>
    if frac.all isDigitCh && !(intPart.isEmpty && frac.isEmpty) then
      some (((digitsVal intPart : Nat) : Rat) +
        ((digitsVal frac : Nat) : Rat) / ((10 : Rat) ^ frac.length))
    else none
  | _ => none

/-- `pd.to_numeric(col, errors='coerce')` on one cell: an optionally
signed decimal numeral parses to a number, anything else becomes the
missing-value marker `none` (NaN). -/
def toNumeric (s : Str) : Option Rat :=
  match pyStrip s with
  | '-' :: r => (parseUnsigned r).map (fun q => -q)
  | '+' :: r => parseUnsigned r
  | r => parseUnsigned r

/-- The two error shapes `extract_career_row` can raise: the explicit
`ValueError('Career row not found in the table')` and the `KeyError`
that `df[season_col]` raises when the chosen season column is absent. -/
inductive ExtractErr where
  | rowNotFound
  | keyErr
deriving Repr, DecidableEq

/-- A table after numeric coercion: career stat columns whose cells
are numeric or missing. -/
structure NumTable where
  header : List Str
  rows : List (List (Option Rat))
deriving Repr, DecidableEq

/-- The columns dropped by `extract_career_row` besides the season
column itself. -/
def extraDropCols : List Str :=
  ["Team".toList, "Conf".toList, "Class".toList, "Pos".toList, "Awards".toList]

/-- The header after line 80's in-place cleaning reassignment. -/
def cleanedHeader (df : DFrame) : List Str := df.header.map cleanCol

/-- The season/year column `extract_career_row` selects on the cleaned
header: the column literally named `Season`, else `year_id`. -/
def seasonColOf (df : DFrame) : Str :=
  if (cleanedHeader df).contains ("Season".toList) then ("Season").toList
  else ("year_id").toList

/-- The index of the selected season/year column in the cleaned
header; `none` models the `KeyError` of `df[season_col]` when the
column is absent. -/
def seasonIdx (df : DFrame) : Option Nat :=
  (cleanedHeader df).findIdx? (fun c => c = seasonColOf df)

/-- The column indices that survive the
`career_df.drop(columns=[...])` of lines 85-86: everything whose
cleaned name is neither the season column nor one of the listed
identifying columns. -/
def keptIdx (df : DFrame) : List Nat :=
  (List.range (cleanedHeader df).length).filter
    (fun j => !((seasonColOf df :: extraDropCols).contains ((cleanedHeader df).getD j [])))

/-- `extract_career_row(df)` from `qb.py`.  The first component is the
returned career table or the error raised; the second component is the
state of the caller's DataFrame after the call (line 80 reassigns
`df.columns` in place before anything else happens). -/
def extract_career_row (df : DFrame) : Except ExtractErr NumTable × DFrame :=
  let dfm : DFrame := { header := cleanedHeader df, rows := df.rows }
  match seasonIdx df with
  | none => (Except.error ExtractErr.keyErr, dfm)
  | some i =>
    let careerRows := df.rows.filter (fun r => r.getD i [] = ("Career").toList)
    if careerRows.isEmpty then (Except.error ExtractErr.rowNotFound, dfm)
    else
      (Except.ok
        { header := (keptIdx df).map (fun j => (cleanedHeader df).getD j []),
          rows := careerRows.map
            (fun r => (keptIdx df).map (fun j => toNumeric (r.getD j []))) },
       dfm)

/-! ### HTML documents and table location

A fetched page body is a tree of nodes.  A `tbl` node stands for a
`<table>` element and directly carries the `DFrame` that
`pd.read_html(str(table))[0]` recovers from it.  A `com` node is an
HTML comment whose contents are the markup between the `<!--` and
`-->` delimiters.  `BeautifulSoup`'s `find` does not descend into
comments (their contents are a plain string, not parsed elements);
the search functions below mirror that.
-/

mutual
inductive Node where
  | el (tag : String) (idAttr : Option String) (children : Forest)
  | tbl (idAttr : Option String) (data : DFrame)
  | com (children : Forest)
  | txt (s : String)
inductive Forest where
  | nil
  | cons (n : Node) (f : Forest)
end

def Forest.append : Forest → Forest → Forest
  | .nil, g => g
  | .cons n f, g => .cons n (f.append g)

mutual
/-- `soup.find('table', id=tid)`: first table element with the given
id attribute, in document order, not entering comments. -/
def findTblN (tid : String) : Node → Option DFrame
  | .el _ _ cs => findTblF tid cs
  | .tbl i d => if i = some tid then some d else none
  | .com _ => none
  | .txt _ => none
def findTblF (tid : String) : Forest → Option DFrame
  | .nil => none
  | .cons n f =>
    match findTblN tid n with
    | some d => some d
    | none => findTblF tid f
end

mutual
/-- `soup.find('div', id=did)`: first div element with the given id,
in document order, not entering comments. -/
def findDivN (did : String) : Node → Option Node
  | .el t i cs =>
    if t = "div" && i = some did then some (.el t i cs) else findDivF did cs
  | .tbl _ _ => none
  | .com _ => none
  | .txt _ => none
def findDivF (did : String) : Forest → Option Node
  | .nil => none
  | .cons n f =>
    match findDivN did n with
    | some d => some d
    | none => findDivF did f
end

mutual
/-- The effect of `re.sub(r'<!--|-->', '', str(node))` followed by
re-parsing: every comment delimiter disappears, so the contents of
every comment (at any depth) become live markup in place. -/
def stripComN : Node → Forest
  | .el t i cs => .cons (.el t i (stripComF cs)) .nil
  | .tbl i d => .cons (.tbl i d) .nil
  | .com cs => stripComF cs
  | .txt s => .cons (.txt s) .nil
def stripComF : Forest → Forest
  | .nil => .nil
  | .cons n f => (stripComN n).append (stripComF f)
end

mutual
/-- `BeautifulSoup(html).find('table')`: first table element with any
id, in document order. -/
def findAnyTblN : Node → Option DFrame
  | .el _ _ cs => findAnyTblF cs
  | .tbl _ d => some d
  | .com _ => none
  | .txt _ => none
def findAnyTblF : Forest → Option DFrame
  | .nil => none
  | .cons n f =>
    match findAnyTblN n with
    | some d => some d
    | none => findAnyTblF f
end

/-- Table location from `fetch_passing_table` (lines 53-66): first try
the live table with id `passing_standard`; if absent, look for the div
with id `div_passing_standard`, strip the comment delimiters from its
serialized contents, re-parse, and take the first table found there;
otherwise there is no table (the candidate is abandoned).

(`if commented_div:` in the source is truthy exactly when the div was
found and is non-empty; an empty div contains no table either way, so
modelling the guard as "the div was found" is observationally
equivalent.) -/
def locate (page : Node) : Option DFrame :=
  match findTblN ("passing_standard") page with
  | some d => some d
  | none =>
    match findDivN ("div_passing_standard") page with
    | some dv => findAnyTblF (stripComN dv)
    | none => none

/-! ### Name resolution and fetching -/

/-- Is the regex class `[\s_]`: whitespace or underscore. -/
def isSpaceOrUnderscore (c : Char) : Bool := isPySpace c || c = '_'

/-- Collapse every run of whitespace/underscore into a single hyphen:
`re.sub(r"[\s_]+", "-", s)`. -/
def collapseRuns : Str → Str
  | [] => []
  | [c] => if isSpaceOrUnderscore c then ['-'] else [c]
  | c1 :: c2 :: cs =>
    if isSpaceOrUnderscore c1 then
      if isSpaceOrUnderscore c2 then collapseRuns (c2 :: cs)
      else '-' :: collapseRuns (c2 :: cs)
    else c1 :: collapseRuns (c2 :: cs)

/-- A slug character: `[a-z0-9-]`. -/
def isSlugChar (c : Char) : Bool :=
  ('a' ≤ c && c ≤ 'z') || ('0' ≤ c && c ≤ '9') || c = '-'

/-- `slugify(name)` from `qb.py`: lower-case, trim, replace runs of
whitespace/underscore with a single hyphen, strip characters outside
`[a-z0-9-]`. -/
def slugify (name : Str) : Str :=
  (collapseRuns (pyStrip (name.map Char.toLower))).filter isSlugChar

/-- Tail of `re.search(r"-\d+$", s)` on the reversed string: after the
leading digits of the reversal comes a hyphen. -/
def revAfterDigits : Str → Bool
  | [] => false
  | c :: cs => if isDigitCh c then revAfterDigits cs else c = '-'

/-- `re.search(r"-\d+$", s)` matched: the string ends in a hyphen
followed by one or more digits. -/
def hasNumSuffix (s : Str) : Bool :=
  match s.reverse with
  | [] => false
  | c :: cs => isDigitCh c && revAfterDigits cs

/-- Candidate identifier generation from `fetch_passing_table` (lines
41-46): the already-suffixed slug first when it ends in `-<digits>`,
then the slug with `-1` appended, then with `-2` appended. -/
def candidates (name : Str) : List Str :=
  let base := slugify name
  (if hasNumSuffix base then [base] else []) ++
    [base ++ ("-1").toList, base ++ ("-2").toList]

/-- The page URL for a candidate slug. -/
def urlOf (slug : Str) : Str :=
  ("https://www.sports-reference.com/cfb/players/").toList ++ slug ++ (".html").toList

/-- One HTTP response: a status code and (for 200) the parsed body. -/
structure HttpResp where
  status : Nat
  page : Node

/-- The retry loop of `fetch_passing_table` for one candidate URL
(lines 50-72), with the transport abstracted as a map from attempt
index to response.  `a` is the current attempt index (the loop runs
`attempt = 1 .. max_retries`), `r` the number of attempts left.
Returns the located table (with the attempt index on which the 200
arrived) or `none` — on a 200 whose body has no table, and on any
other non-200, non-retryable status, the loop `break`s and the
candidate is abandoned — together with the list of sleep durations
performed (`time.sleep(2 * attempt)` before each retry on 429/503). -/
def fetchFrom (transport : Nat → HttpResp) : Nat → Nat → Option (DFrame × Nat) × List Nat
  | _, 0 => (none, [])
  | a, r + 1 =>
    let resp := transport a
    if resp.status = 200 then
      ((locate resp.page).map (fun t => (t, a)), [])
    else if resp.status = 429 ∨ resp.status = 503 then
      let rest := fetchFrom transport (a + 1) r
      (rest.1, 2 * a :: rest.2)
    else (none, [])

/-- Fetch one candidate URL with the full retry budget. -/
def fetchCandidate (transport : Nat → HttpResp) (maxRetries : Nat) :
    Option (DFrame × Nat) × List Nat :=
  fetchFrom transport 1 maxRetries

/-- The outer candidate loop of `fetch_passing_table` (line 48): try
each candidate URL in order; the first located table wins; sleeps
accumulate across candidates.  The transport is keyed by URL and
attempt index. -/
def tryCandidates (transport : Str → Nat → HttpResp) (maxRetries : Nat) :
    List Str → Option DFrame × List Nat
  | [] => (none, [])
  | slug :: rest =>
    let r := fetchCandidate (transport (urlOf slug)) maxRetries
    match r.1 with
    | some (t, _) => (some t, r.2)
    | none =>
      let rr := tryCandidates transport maxRetries rest
      (rr.1, r.2 ++ rr.2)

/-- `fetch_passing_table(player_name, max_retries)`: generate the
candidates and try them in order; `none` models the final
`raise ValueError(...)` when every candidate is exhausted. -/
def fetch_passing_table (transport : Str → Nat → HttpResp) (maxRetries : Nat)
    (playerName : Str) : Option DFrame × List Nat :=
  tryCandidates transport maxRetries (candidates playerName)

/-! ### Batch orchestration (`batch_generate`) -/

/-- One row of the input roster: the value of the name column and the
remaining label cells of that row. -/
structure InRow where
  name : Str
  labels : List Str
deriving Repr, DecidableEq

/-- One row of the accumulated stats (`stats_list` /
`pd.concat(stats_list)`): the inserted `Player` key and the career
stat cells keyed by column name. -/
structure StatRow where
  player : Str
  fields : List (Str × Option Rat)
deriving Repr, DecidableEq

/-- One row of the final output table: the player name (the join
index), the preserved label cells, and the joined stat cells (in the
order of the concatenated stats columns, `none` where missing). -/
structure OutRow where
  name : Str
  labels : List Str
  stats : List (Option Rat)
deriving Repr, DecidableEq

/-- Keep the first occurrence of each name
(`Series.drop_duplicates`). -/
def firstDedup (seen : List Str) : List Str → List Str
  | [] => []
  | n :: ns =>
    if seen.contains n then firstDedup seen ns
    else n :: firstDedup (n :: seen) ns

/-- Keep the first row for each name
(`players_df.drop_duplicates(subset=[name_col])`). -/
def firstRows (seen : List Str) : List InRow → List InRow
  | [] => []
  | r :: rs =>
    if seen.contains r.name then firstRows seen rs
    else r :: firstRows (r.name :: seen) rs

/-- The body of the batch loop for one player (lines 120-126): fetch,
extract the career row, and turn it into stat rows with the `Player`
column inserted; any exception (no candidate fetched, or an extraction
error) yields `none` and is reported as a warning.  The sleep trace of
the fetch is returned alongside. -/
def processPlayer (transport : Str → Nat → HttpResp) (name : Str) :
    Option (List StatRow) × List Nat :=
  let f := fetch_passing_table transport 3 name
  match f.1 with
  | none => (none, f.2)
  | some raw =>
    match (extract_career_row raw).1 with
    | Except.error _ => (none, f.2)
    | Except.ok t =>
      (some (t.rows.map (fun r => { player := name, fields := t.header.zip r })), f.2)

/-- The union of stat columns in order of first appearance, as
`pd.concat` aligns the per-player career tables. -/
def statCols (stats : List StatRow) : List Str :=
  firstDedup [] ((stats.map (fun s => s.fields.map Prod.fst)).flatten)

/-- `labels_df.join(stats_df.set_index('Player'), how='left')` for one
left row: every stat row whose `Player` equals the label row's name
produces one output row; a player with no stat rows yields a single
row with every stat cell missing. -/
def joinRow (cols : List Str) (stats : List StatRow) (lr : InRow) : List OutRow :=
  match stats.filter (fun s => s.player = lr.name) with
  | [] => [{ name := lr.name, labels := lr.labels, stats := cols.map (fun _ => none) }]
  | ms => ms.map (fun m =>
      { name := lr.name, labels := lr.labels,
        stats := cols.map (fun c => (List.lookup c m.fields).getD none) })

/-- The observable outcome of `batch_generate`: the output table (or
`none` when the run exits with `sys.exit(1)`), whether the failure
exit was taken, the names warned about, and the whole run's sleep
trace in order. -/
structure BatchResult where
  outRows : Option (List OutRow)
  exitFail : Bool
  warnings : List Str
  sleeps : List Nat
deriving Repr, DecidableEq

/-- Line 115: the name column is stripped in place. -/
def strippedRoster (roster : List InRow) : List InRow :=
  roster.map (fun r => { r with name := pyStrip r.name })

/-- Line 116: `unique_names`, the stripped names with the first
occurrence of each kept. -/
def rosterNames (roster : List InRow) : List Str :=
  firstDedup [] ((strippedRoster roster).map (fun r => r.name))

/-- The batch loop (lines 118-126): process each unique name in
order. -/
def playerResults (transport : Str → Nat → HttpResp) (roster : List InRow) :
    List (Str × (Option (List StatRow) × List Nat)) :=
  (rosterNames roster).map (fun n => (n, processPlayer transport n))

/-- `pd.concat(stats_list)` (line 132): all successful players' stat
rows in processing order. -/
def allStats (transport : Str → Nat → HttpResp) (roster : List InRow) : List StatRow :=
  ((playerResults transport roster).filterMap (fun p => p.2.1)).flatten

/-- `batch_generate` (lines 115-141) over an already-parsed roster:
strip the names, deduplicate them, process each unique name in order
(collecting per-player warnings on failure), exit with failure status
iff no player yielded data, else concatenate the stats and left-join
them onto the first-occurrence label rows. -/
def batch_generate (transport : Str → Nat → HttpResp) (roster : List InRow) :
    BatchResult :=
  let results := playerResults transport roster
  let sleeps := (results.map (fun p => p.2.2)).flatten
  let warnings := (results.filter (fun p => p.2.1 = none)).map (fun p => p.1)
  if results.all (fun p => p.2.1 = none) then
    { outRows := none, exitFail := true, warnings := warnings, sleeps := sleeps }
  else
    let stats := allStats transport roster
    let labelRows := firstRows [] (strippedRoster roster)
    { outRows := some ((labelRows.map (joinRow (statCols stats) stats)).flatten),
      exitFail := false, warnings := warnings, sleeps := sleeps }

/-! ### Concrete instances used by witnesses and counterexamples -/

/-- A minimal passing table with a `Career` totals row. -/
def tbl0 : DFrame :=
  { header := [("Season").toList, ("Yds").toList],
    rows := [[("2019").toList, ("55").toList], [("Career").toList, ("100").toList]] }

/-- A table whose season column has no `Career` row. -/
def tblNoCareer : DFrame :=
  { header := [("Season").toList, ("Yds").toList],
    rows := [[("2019").toList, ("55").toList]] }

/-- A table with neither a `Season` nor a `year_id` column. -/
def tblNoSeason : DFrame :=
  { header := [("Year").toList, ("Yds").toList],
    rows := [[("Career").toList, ("100").toList]] }

/-- A table with two rows whose season column equals `Career`. -/
def tbl2Career : DFrame :=
  { header := [("Season").toList, ("Yds").toList],
    rows := [[("Career").toList, ("10").toList], [("Career").toList, ("20").toList]] }

/-- A table with symbol characters in its header and no `Career`
row. -/
def tblSymbols : DFrame :=
  { header := [("Season*").toList, ("Yds#").toList],
    rows := [[("2019").toList, ("55").toList]] }

/-- A page carrying the table live in the DOM. -/
def livePage (t : DFrame) : Node :=
  .el "html" none (.cons
    (.el "body" none (.cons (.tbl (some "passing_standard") t) .nil)) .nil)

/-- A page carrying the same table hidden inside an HTML comment
within the `div_passing_standard` container. -/
def commentPage (t : DFrame) : Node :=
  .el "html" none (.cons
    (.el "body" none (.cons
      (.el "div" (some "div_passing_standard") (.cons
        (.com (.cons (.tbl (some "passing_standard") t) .nil)) .nil)) .nil)) .nil)

/-- The `div_passing_standard` container of `commentPage tbl0`. -/
def divNode0 : Node :=
  .el "div" (some "div_passing_standard") (.cons
    (.com (.cons (.tbl (some "passing_standard") tbl0) .nil)) .nil)

/-- A page with no passing table and no container div. -/
def emptyPage : Node := .el "html" none (.cons (.txt "nothing here") .nil)

/-- The location–normalization–extraction pipeline applied to one
fetched page body. -/
def locateExtract (p : Node) : Option (Except ExtractErr NumTable) :=
  (locate p).map (fun df => (extract_career_row df).1)

/-- A transport answering 200 with a live table page for every URL
and attempt. -/
def trAll200 : Str → Nat → HttpResp := fun _ _ => { status := 200, page := livePage tbl0 }

/-- A transport answering 404 everywhere. -/
def trAll404 : Str → Nat → HttpResp := fun _ _ => { status := 404, page := emptyPage }

/-- A single-URL transport answering 503 on the first two attempts
and 200 with a live table page on the third. -/
def tr503 : Nat → HttpResp := fun a =>
  if a < 3 then { status := 503, page := emptyPage }
  else { status := 200, page := livePage tbl0 }

/-- A transport answering 503 on the first attempt at any URL, then
200 with a live table page. -/
def trRetryOnce : Str → Nat → HttpResp := fun _ a =>
  if a = 1 then { status := 503, page := emptyPage }
  else { status := 200, page := livePage tbl0 }

/-- A two-player roster. -/
def roster2 : List InRow :=
  [{ name := ("jane doe").toList, labels := [("A").toList] },
   { name := ("bob roe").toList, labels := [("B").toList] }]

/-- A single-player roster. -/
def roster1 : List InRow := [{ name := ("jane doe").toList, labels := [("A").toList] }]

/-- A roster with a duplicated player name. -/
def roster3 : List InRow :=
  [{ name := ("jane doe").toList, labels := [("A").toList] },
   { name := ("jane doe").toList, labels := [("B").toList] },
   { name := ("bob roe").toList, labels := [("C").toList] }]

/-- The career table extracted from `tbl2Career`. -/
def t2c : NumTable := { header := [("Yds").toList], rows := [[some 10], [some 20]] }

/-- The output table of the batch run on `roster3` with `trAll200`. -/
def outRoster3 : List OutRow :=
  [{ name := ("jane doe").toList, labels := [("A").toList], stats := [some 100] },
   { name := ("bob roe").toList, labels := [("C").toList], stats := [some 100] }]

/-! ### Theorems -/

/-- Claim C9: for any two page bodies carrying the same underlying
table data — one with the table live in the DOM, one with the table
hidden inside an HTML comment within the `div_passing_standard`
container — location, normalization and career-row extraction produce
structurally identical results. -/
theorem pipeline_comment_equiv (t : DFrame) :
    locateExtract (livePage t) = locateExtract (commentPage t) ∧
    locateExtract (livePage t) = some (extract_career_row t).1 := ⟨rfl, rfl⟩

/-- Claim C1: table location proceeds in two passes — first the live
table with id `passing_standard`; failing that, the div with id
`div_passing_standard` has the comment delimiters stripped from its
serialized contents, is re-parsed, and the first table found there is
taken; if neither pass yields a table the result is NotFound. -/
theorem locate_two_pass (p : Node) (t : DFrame) (dv : Node) :
    (findTblN ("passing_standard") p = some t → locate p = some t) ∧
    (findTblN ("passing_standard") p = none →
      findDivN ("div_passing_standard") p = some dv →
      locate p = findAnyTblF (stripComN dv)) ∧
    (findTblN ("passing_standard") p = none →
      findDivN ("div_passing_standard") p = none → locate p = none) := by
  constructor
  · intro h1; simp [locate, h1]
  constructor
  · intro h1 h2; simp [locate, h1, h2]
  · intro h1 h2; simp [locate, h1, h2]

/-- Witness for C1 on a concrete comment-hidden page. -/
theorem locate_two_pass_witness :
    findTblN ("passing_standard") (commentPage tbl0) = none ∧
    findDivN ("div_passing_standard") (commentPage tbl0) = some divNode0 ∧
    locate (commentPage tbl0) = findAnyTblF (stripComN divNode0) :=
  ⟨rfl, rfl, (locate_two_pass (commentPage tbl0) tbl0 divNode0).2.1 rfl rfl⟩

/-- Claim C10: `extract_career_row` is not free of side effects on its
argument — it reassigns the caller's column labels in place (symbol
characters removed, whitespace trimmed) before filtering, so the
mutation persists even on a call that fails with RowNotFound. -/
theorem extract_mutates_columns :
    (∀ df : DFrame,
      (extract_career_row df).2 = { header := df.header.map cleanCol, rows := df.rows }) ∧
    (extract_career_row tblSymbols).2.header ≠ tblSymbols.header ∧
    (extract_career_row tblSymbols).1 = Except.error ExtractErr.rowNotFound := by
  refine ⟨fun df => ?_, by decide, by decide⟩
  simp only [extract_career_row]
  split
  · rfl
  · split
    · rfl
    · rfl

/-- Claim C7: the candidate identifiers are generated from the slug
and tried in a fixed order — the already-suffixed slug itself first
when it ends in `-<digits>`, then the slug with `-1`, then with `-2`;
without a numeric suffix only the `-1` and `-2` forms are tried, in
that order; and the slug consists only of `[a-z0-9-]` characters. -/
theorem candidates_priority (name : Str) :
    (hasNumSuffix (slugify name) = true →
      candidates name =
        [slugify name, slugify name ++ ("-1").toList, slugify name ++ ("-2").toList]) ∧
    (hasNumSuffix (slugify name) = false →
      candidates name = [slugify name ++ ("-1").toList, slugify name ++ ("-2").toList]) ∧
    ∀ c ∈ slugify name, isSlugChar c = true := by
  refine ⟨fun h => ?_, fun h => ?_, fun c hc => ?_⟩
  · simp [candidates, h]
  · simp [candidates, h]
  · simp only [slugify] at hc; exact List.of_mem_filter hc

/-- Witness for C7 on two concrete names. -/
theorem candidates_priority_witness :
    hasNumSuffix (slugify ("john smith-2").toList) = true ∧
    candidates ("john smith-2").toList =
      [slugify ("john smith-2").toList,
       slugify ("john smith-2").toList ++ ("-1").toList,
       slugify ("john smith-2").toList ++ ("-2").toList] ∧
    hasNumSuffix (slugify ("john smith").toList) = false ∧
    candidates ("john smith").toList =
      [slugify ("john smith").toList ++ ("-1").toList,
       slugify ("john smith").toList ++ ("-2").toList] :=
  ⟨by decide, (candidates_priority (("john smith-2").toList)).1 (by decide),
   by decide, (candidates_priority (("john smith").toList)).2.1 (by decide)⟩

/-- Claim C3: within the bounded retry loop, HTTP 200 is a success,
429 and 503 sleep `2 * attempt` seconds and retry the same URL (so
successive backoffs strictly increase), any other status abandons the
candidate immediately, and a transport returning 503 twice then 200
succeeds on the third attempt having slept 2 then 4 seconds. -/
theorem fetch_retry_policy (transport : Nat → HttpResp) (a r : Nat) :
    ((transport a).status = 200 →
      fetchFrom transport a (r + 1) =
        ((locate (transport a).page).map (fun t => (t, a)), [])) ∧
    (((transport a).status = 429 ∨ (transport a).status = 503) →
      fetchFrom transport a (r + 1) =
        ((fetchFrom transport (a + 1) r).1, 2 * a :: (fetchFrom transport (a + 1) r).2)) ∧
    ((transport a).status ≠ 200 → (transport a).status ≠ 429 → (transport a).status ≠ 503 →
      fetchFrom transport a (r + 1) = (none, [])) ∧
    fetchCandidate tr503 3 = (some (tbl0, 3), [2, 4]) ∧ 2 < 4 := by
  refine ⟨fun h => ?_, fun h => ?_, fun h1 h2 h3 => ?_, by decide, by decide⟩
  · simp [fetchFrom, h]
  · rcases h with h | h <;> simp [fetchFrom, h]
  · simp [fetchFrom, h1, h2, h3]

/-- Witness for C3 on the 503-503-200 transport. -/
theorem fetch_retry_policy_witness :
    ((tr503 1).status = 429 ∨ (tr503 1).status = 503) ∧
    fetchFrom tr503 1 (2 + 1) =
      ((fetchFrom tr503 2 2).1, 2 * 1 :: (fetchFrom tr503 2 2).2) :=
  ⟨Or.inr (by decide), (fetch_retry_policy tr503 1 2).2.1 (Or.inr (by decide))⟩

/-- Counterexample to claim C2 as stated: on a table with neither a
`Season` nor a `year_id` column the extraction fails with the
`KeyError` shape, an error type other than RowNotFound, even though no
row's season/year column equals `Career`. -/
theorem extract_unrelated_error_cex :
    (extract_career_row tblNoSeason).1 = Except.error ExtractErr.keyErr ∧
    ExtractErr.keyErr ≠ ExtractErr.rowNotFound := by decide

/-- Claim C2 (amended): provided the cleaned header does contain the
selected season/year column, extraction fails with RowNotFound exactly
when no row's season/year column equals `Career`, and succeeds without
raising when such a row exists. -/
theorem extract_rowNotFound_iff (df : DFrame) (i : Nat) (h : seasonIdx df = some i) :
    ((extract_career_row df).1 = Except.error ExtractErr.rowNotFound ↔
      ∀ r ∈ df.rows, ¬(r.getD i [] = ("Career").toList)) ∧
    ((∃ r ∈ df.rows, r.getD i [] = ("Career").toList) →
      ∃ t, (extract_career_row df).1 = Except.ok t) := by
  simp only [extract_career_row, h]
  by_cases hemp : (df.rows.filter (fun r => r.getD i [] = ("Career").toList)).isEmpty
  · rw [List.isEmpty_iff, List.filter_eq_nil_iff] at hemp
    simp only [decide_eq_true_eq] at hemp
    rw [if_pos]
    · constructor
      · simp only [true_iff]
        exact fun r hr => hemp r hr
      · rintro ⟨r, hr, hcar⟩
        exact absurd hcar (hemp r hr)
    · rw [List.isEmpty_iff, List.filter_eq_nil_iff]
      simp only [decide_eq_true_eq]
      exact hemp
  · rw [if_neg hemp]
    rw [List.isEmpty_iff, List.filter_eq_nil_iff] at hemp
    simp only [decide_eq_true_eq] at hemp
    push_neg at hemp
    constructor
    · simp only [iff_false_intro]
      constructor
      · intro hx; cases hx
      · intro hall
        obtain ⟨r, hr, hcar⟩ := hemp
        exact absurd hcar (hall r hr)
    · intro _; exact ⟨_, rfl⟩

/-- Witness for the amended C2 on a concrete table without a `Career`
row. -/
theorem extract_rowNotFound_iff_witness :
    seasonIdx tblNoCareer = some 0 ∧
    ((extract_career_row tblNoCareer).1 = Except.error ExtractErr.rowNotFound ↔
      ∀ r ∈ tblNoCareer.rows, ¬(r.getD 0 [] = ("Career").toList)) :=
  ⟨by decide, (extract_rowNotFound_iff tblNoCareer 0 (by decide)).1⟩

/-- Counterexample to claim C6 as stated: on a table with two `Career`
rows the returned career table contains both rows, not exactly one. -/
theorem extract_two_career_rows_cex :
    ((extract_career_row tbl2Career).1.map (fun t => t.rows.length)) = Except.ok 2 ∧
    (2 : Nat) ≠ 1 := by decide

/-- Claim C6 (amended): when extraction succeeds, the returned career
table contains every row whose season/year column equals `Career`, in
table order (with more than one match, all matches are returned, the
first match being the first returned row). -/
theorem extract_returns_all_matches (df : DFrame) (i : Nat) (h : seasonIdx df = some i)
    (t : NumTable) (ht : (extract_career_row df).1 = Except.ok t) :
    t.rows = (df.rows.filter (fun r => r.getD i [] = ("Career").toList)).map
      (fun r => (keptIdx df).map (fun j => toNumeric (r.getD j []))) := by
  simp only [extract_career_row, h] at ht
  split at ht
  · cases ht
  · rw [Except.ok.injEq] at ht
    rw [← ht]

/-- Witness for the amended C6 on the two-`Career`-row table. -/
theorem extract_returns_all_matches_witness :
    seasonIdx tbl2Career = some 0 ∧
    (extract_career_row tbl2Career).1 = Except.ok t2c ∧
    t2c.rows = (tbl2Career.rows.filter (fun r => r.getD 0 [] = ("Career").toList)).map
      (fun r => (keptIdx tbl2Career).map (fun j => toNumeric (r.getD j []))) :=
  ⟨by decide, by decide,
    extract_returns_all_matches tbl2Career 0 (by decide) t2c (by decide)⟩

/-- Every sleep performed by the per-candidate retry loop is a
`2 * attempt` backoff for some attempt that saw a 429 or 503. -/
theorem fetchFrom_sleep_mem (transport : Nat → HttpResp) :
    ∀ (r a d : Nat), d ∈ (fetchFrom transport a r).2 →
      ∃ b, a ≤ b ∧ ((transport b).status = 429 ∨ (transport b).status = 503) ∧
        d = 2 * b := by
  intro r
  induction r with
  | zero => intro a d hd; simp [fetchFrom] at hd
  | succ r ih =>
    intro a d hd
    simp only [fetchFrom] at hd
    by_cases h200 : (transport a).status = 200
    · rw [if_pos h200] at hd; simp at hd
    · rw [if_neg h200] at hd
      by_cases hret : (transport a).status = 429 ∨ (transport a).status = 503
      · rw [if_pos hret] at hd
        simp only [List.mem_cons] at hd
        rcases hd with rfl | hd
        · exact ⟨a, Nat.le_refl a, hret, rfl⟩
        · obtain ⟨b, hab, hb, hdb⟩ := ih (a + 1) d hd
          exact ⟨b, by omega, hb, hdb⟩
      · rw [if_neg hret] at hd; simp at hd

/-- Every sleep performed across the candidate loop is a retry
backoff. -/
theorem tryCandidates_sleep_mem (transport : Str → Nat → HttpResp) (m : Nat) :
    ∀ (slugs : List Str) (d : Nat), d ∈ (tryCandidates transport m slugs).2 →
      ∃ u b, 1 ≤ b ∧ ((transport u b).status = 429 ∨ (transport u b).status = 503) ∧
        d = 2 * b := by
  intro slugs
  induction slugs with
  | nil => intro d hd; simp [tryCandidates] at hd
  | cons s rest ih =>
    intro d hd
    simp only [tryCandidates] at hd
    split at hd
    · obtain ⟨b, h1b, hb, hdb⟩ := fetchFrom_sleep_mem (transport (urlOf s)) m 1 d hd
      exact ⟨urlOf s, b, h1b, hb, hdb⟩
    · rw [List.mem_append] at hd
      rcases hd with hd | hd
      · obtain ⟨b, h1b, hb, hdb⟩ := fetchFrom_sleep_mem (transport (urlOf s)) m 1 d hd
        exact ⟨urlOf s, b, h1b, hb, hdb⟩
      · exact ih d hd

/-- Processing one player sleeps exactly as much as its fetch does:
the extraction stage adds no sleeping. -/
theorem processPlayer_sleeps (transport : Str → Nat → HttpResp) (n : Str) :
    (processPlayer transport n).2 = (fetch_passing_table transport 3 n).2 := by
  simp only [processPlayer]
  split
  · rfl
  · split <;> rfl

/-- The batch run's sleep trace is the concatenation of the
per-player fetch traces: the batch loop itself adds no sleeping. -/
theorem batch_sleeps_eq (transport : Str → Nat → HttpResp) (roster : List InRow) :
    (batch_generate transport roster).sleeps =
      ((playerResults transport roster).map (fun p => p.2.2)).flatten := by
  simp only [batch_generate]
  split <;> rfl

/-- Counterexample to claim C4 as stated: a two-player batch run in
which every request answers 200 immediately performs no sleep at all —
in particular there is no mandatory ~1 second pause between the two
players -- yet both players are processed successfully. -/
theorem batch_no_pause_cex :
    (batch_generate trAll200 roster2).sleeps = [] ∧
    (batch_generate trAll200 roster2).warnings = [] ∧
    ((batch_generate trAll200 roster2).outRows.map List.length) = some 2 := by decide

/-- Claim C4 (amended): the batch loop inserts no pause of its own
between players; every sleep performed during a batch run is a
`2 * attempt` retry backoff caused by a 429 or 503 response inside
fetching. -/
theorem batch_sleeps_only_retry_backoffs (transport : Str → Nat → HttpResp)
    (roster : List InRow) (d : Nat)
    (hd : d ∈ (batch_generate transport roster).sleeps) :
    ∃ u b, 1 ≤ b ∧ ((transport u b).status = 429 ∨ (transport u b).status = 503) ∧
      d = 2 * b := by
  rw [batch_sleeps_eq, List.mem_flatten] at hd
  obtain ⟨l, hl, hdl⟩ := hd
  rw [List.mem_map] at hl
  obtain ⟨p, hp, rfl⟩ := hl
  simp only [playerResults, List.mem_map] at hp
  obtain ⟨n, hn, rfl⟩ := hp
  rw [processPlayer_sleeps] at hdl
  exact tryCandidates_sleep_mem transport 3 (candidates n) d hdl

/-- Witness for the amended C4 on a run that does sleep once. -/
theorem batch_sleeps_witness :
    (2 ∈ (batch_generate trRetryOnce roster1).sleeps) ∧
    (∃ u b, 1 ≤ b ∧ ((trRetryOnce u b).status = 429 ∨ (trRetryOnce u b).status = 503) ∧
      2 = 2 * b) :=
  ⟨by decide, batch_sleeps_only_retry_backoffs trRetryOnce roster1 2 (by decide)⟩

/-- Filtering a tagged map by a property of the payload and keeping
the keys is filtering the keys by the property of their payload. -/
theorem map_fst_filter_snd (g : Str → Option (List StatRow) × List Nat) (l : List Str) :
    ((l.map (fun n => (n, g n))).filter (fun p => p.2.1 = none)).map (fun p => p.1) =
      l.filter (fun n => (g n).1 = none) := by
  induction l with
  | nil => rfl
  | cons n ns ih =>
    simp only [List.map_cons, List.filter_cons]
    by_cases h : (g n).1 = none
    · simp [h, ih]
    · simp [h, ih]

/-- Claim C8: a single player's failure is recorded as a per-player
warning and never aborts the batch; the run takes the non-zero failure
exit iff no player yields any data, and otherwise an output table of
partial results is produced. -/
theorem batch_exit_iff_no_data (transport : Str → Nat → HttpResp) (roster : List InRow) :
    ((batch_generate transport roster).exitFail = true ↔
      ∀ n ∈ rosterNames roster, (processPlayer transport n).1 = none) ∧
    ((batch_generate transport roster).warnings =
      (rosterNames roster).filter (fun n => (processPlayer transport n).1 = none)) ∧
    ((batch_generate transport roster).exitFail = false ↔
      ∃ rows, (batch_generate transport roster).outRows = some rows) := by
  have hall_iff : (playerResults transport roster).all (fun p => p.2.1 = none) = true ↔
      ∀ n ∈ rosterNames roster, (processPlayer transport n).1 = none := by
    rw [List.all_eq_true]
    constructor
    · intro h n hn
      have := h (n, processPlayer transport n)
        (by simp only [playerResults, List.mem_map]; exact ⟨n, hn, rfl⟩)
      simpa using this
    · intro h p hp
      simp only [playerResults, List.mem_map] at hp
      obtain ⟨n, hn, rfl⟩ := hp
      simpa using h n hn
  have hwarn : (batch_generate transport roster).warnings =
      (rosterNames roster).filter (fun n => (processPlayer transport n).1 = none) := by
    have := map_fst_filter_snd (processPlayer transport) (rosterNames roster)
    simp only [batch_generate]
    split
    · exact this
    · exact this
  refine ⟨?_, hwarn, ?_⟩
  · simp only [batch_generate]
    by_cases hall : (playerResults transport roster).all (fun p => p.2.1 = none)
    · rw [if_pos hall]
      simp only [true_iff]
      exact hall_iff.mp hall
    · rw [if_neg hall]
      simp only [Bool.false_eq_true, false_iff]
      intro hcon
      exact hall (hall_iff.mpr hcon)
  · simp only [batch_generate]
    by_cases hall : (playerResults transport roster).all (fun p => p.2.1 = none)
    · rw [if_pos hall]
      simp
    · rw [if_neg hall]
      simp

/-- Witness for C8: an all-404 run fails, an all-200 run does not. -/
theorem batch_exit_witness :
    ((batch_generate trAll404 roster2).exitFail = true ↔
      ∀ n ∈ rosterNames roster2, (processPlayer trAll404 n).1 = none) ∧
    (batch_generate trAll200 roster2).exitFail = false :=
  ⟨(batch_exit_iff_no_data trAll404 roster2).1, by decide⟩

/-- Every stat row produced for player `n` carries `n` as its
`Player` key. -/
theorem processPlayer_rows_player (transport : Str → Nat → HttpResp) (n : Str)
    (rows : List StatRow) (h : (processPlayer transport n).1 = some rows) :
    ∀ s ∈ rows, s.player = n := by
  simp only [processPlayer] at h
  split at h
  · cases h
  · split at h
    · cases h
    · rw [Option.some.injEq] at h
      intro s hs
      rw [← h] at hs
      rw [List.mem_map] at hs
      obtain ⟨r, _, rfl⟩ := hs
      rfl

/-- Every row of the concatenated stats comes from the successful
fetch of the player named in its `Player` key. -/
theorem statMem (transport : Str → Nat → HttpResp) :
    ∀ (names : List Str) (s : StatRow),
      s ∈ ((names.map (fun n => (n, processPlayer transport n))).filterMap
        (fun p => p.2.1)).flatten →
      ∃ n ∈ names, s.player = n ∧
        ∃ rows, (processPlayer transport n).1 = some rows ∧ s ∈ rows := by
  intro names
  induction names with
  | nil => intro s hs; simp at hs
  | cons n ns ih =>
    intro s hs
    simp only [List.map_cons, List.filterMap_cons] at hs
    rcases hp : (processPlayer transport n).1 with _ | rows
    · rw [hp] at hs
      obtain ⟨n', hn', hpl, hrest⟩ := ih s hs
      exact ⟨n', List.mem_cons_of_mem n hn', hpl, hrest⟩
    · rw [hp] at hs
      rw [List.flatten_cons, List.mem_append] at hs
      rcases hs with hs | hs
      · exact ⟨n, List.mem_cons_self n ns,
          processPlayer_rows_player transport n rows hp s hs, rows, hp, hs⟩
      · obtain ⟨n', hn', hpl, hrest⟩ := ih s hs
        exact ⟨n', List.mem_cons_of_mem n hn', hpl, hrest⟩

/-- Members of `firstDedup seen l` avoid `seen` and come from `l`. -/
theorem firstDedup_not_seen :
    ∀ (l seen : List Str) (x : Str), x ∈ firstDedup seen l →
      seen.contains x = false ∧ x ∈ l := by
  intro l
  induction l with
  | nil => intro seen x hx; simp [firstDedup] at hx
  | cons n ns ih =>
    intro seen x hx
    simp only [firstDedup] at hx
    by_cases h : seen.contains n
    · rw [if_pos h] at hx
      obtain ⟨h1, h2⟩ := ih seen x hx
      exact ⟨h1, List.mem_cons_of_mem n h2⟩
    · rw [if_neg h] at hx
      rw [List.mem_cons] at hx
      rcases hx with rfl | hx
      · exact ⟨Bool.eq_false_iff.mpr h, List.mem_cons_self x ns⟩
      · obtain ⟨h1, h2⟩ := ih (n :: seen) x hx
        rw [List.contains_cons, Bool.or_eq_false_iff] at h1
        exact ⟨h1.2, List.mem_cons_of_mem n h2⟩

/-- First-occurrence deduplication yields pairwise-distinct names. -/
theorem firstDedup_nodup : ∀ (l seen : List Str), (firstDedup seen l).Nodup := by
  intro l
  induction l with
  | nil => intro seen; simp [firstDedup]
  | cons n ns ih =>
    intro seen
    simp only [firstDedup]
    by_cases h : seen.contains n
    · rw [if_pos h]; exact ih seen
    · rw [if_neg h]
      refine List.Nodup.cons ?_ (ih (n :: seen))
      intro hmem
      have := (firstDedup_not_seen ns (n :: seen) n hmem).1
      rw [List.contains_cons] at this
      simp at this

/-- With distinct names and at most one career row per successful
player, the concatenated stats hold at most one row per player name. -/
theorem statsFilter_len_le_one (transport : Str → Nat → HttpResp) :
    ∀ (names : List Str),
      (∀ n ∈ names, ((processPlayer transport n).1.getD []).length ≤ 1) →
      names.Nodup → ∀ (x : Str),
      ((((names.map (fun n => (n, processPlayer transport n))).filterMap
        (fun p => p.2.1)).flatten).filter (fun s => s.player = x)).length ≤ 1 := by
  intro names
  induction names with
  | nil => intro _ _ x; simp
  | cons n ns ih =>
    intro h1 hnd x
    simp only [List.map_cons, List.filterMap_cons]
    rcases hp : (processPlayer transport n).1 with _ | rows
    · exact ih (fun m hm => h1 m (List.mem_cons_of_mem n hm)) hnd.of_cons x
    · rw [List.flatten_cons, List.filter_append, List.length_append]
      by_cases hxn : x = n
      · subst hxn
        have htail :
            (((ns.map (fun n => (n, processPlayer transport n))).filterMap
              (fun p => p.2.1)).flatten.filter (fun s => s.player = x)).length = 0 := by
          rw [List.length_eq_zero, List.filter_eq_nil_iff]
          intro s hs
          obtain ⟨n', hn', hpl, _⟩ := statMem transport ns s hs
          simp only [decide_eq_true_eq]
          intro hcon
          rw [List.nodup_cons] at hnd
          exact hnd.1 (hcon ▸ hpl ▸ hn')
        have hhead : (rows.filter (fun s => s.player = x)).length ≤ rows.length :=
          List.length_filter_le _ _
        have hrow1 : rows.length ≤ 1 := by
          have := h1 x (List.mem_cons_self x ns)
          rw [hp] at this
          simpa using this
        omega
      · have hh : rows.filter (fun s => s.player = x) = [] := by
          rw [List.filter_eq_nil_iff]
          intro s hs
          have := processPlayer_rows_player transport n rows hp s hs
          simp only [decide_eq_true_eq, this]
          exact fun hcon => hxn hcon.symm
        rw [hh]
        simpa using ih (fun m hm => h1 m (List.mem_cons_of_mem n hm)) hnd.of_cons x

/-- With at most one stat row for its name, a left-join of one label
row produces exactly one output row carrying that row's name and
labels. -/
theorem joinRow_single (cols : List Str) (stats : List StatRow) (lr : InRow)
    (h : (stats.filter (fun s => s.player = lr.name)).length ≤ 1) :
    (joinRow cols stats lr).map (fun r => (r.name, r.labels)) = [(lr.name, lr.labels)] := by
  simp only [joinRow]
  rcases hf : stats.filter (fun s => s.player = lr.name) with _ | ⟨m, ms⟩
  · rw [hf]
    rfl
  · rw [hf] at h
    rw [hf]
    rcases ms with _ | ⟨m2, ms2⟩
    · rfl
    · simp at h

/-- Shape of any output row produced by the left-join of one label
row. -/
theorem joinRow_mem (cols : List Str) (stats : List StatRow) (lr : InRow) (r : OutRow)
    (hr : r ∈ joinRow cols stats lr) :
    r.name = lr.name ∧ r.labels = lr.labels ∧
      (r.stats = cols.map (fun _ => none) ∨
        ∃ m ∈ stats, m.player = lr.name ∧
          r.stats = cols.map (fun c => (List.lookup c m.fields).getD none)) := by
  simp only [joinRow] at hr
  rcases hf : stats.filter (fun s => s.player = lr.name) with _ | ⟨m, ms⟩ <;> rw [hf] at hr
  · rw [List.mem_singleton] at hr
    subst hr
    exact ⟨rfl, rfl, Or.inl rfl⟩
  · rw [List.mem_map] at hr
    obtain ⟨m2, hm2, rfl⟩ := hr
    have hmf : m2 ∈ stats.filter (fun s => s.player = lr.name) := by
      rw [hf]; exact hm2
    rw [List.mem_filter] at hmf
    exact ⟨rfl, rfl, Or.inr ⟨m2, hmf.1, by simpa using hmf.2, rfl⟩⟩

/-- Flattening a map that yields singletons is a map. -/
theorem flatten_of_singletons {α β : Type} (l : List α) (g : α → List β) (h : α → β)
    (hg : ∀ a ∈ l, g a = [h a]) : (l.map g).flatten = l.map h := by
  induction l with
  | nil => rfl
  | cons a as ih =>
    simp only [List.map_cons, List.flatten_cons, hg a (List.mem_cons_self a as),
      ih (fun b hb => hg b (List.mem_cons_of_mem a hb))]
    rfl

/-- Claim C5 (amended): when the run writes an output table and each
successful player's career table has a single row, the output contains
exactly one row per distinct stripped input name — duplicate
occurrences collapse onto the first occurrence's label row — with the
original label columns preserved, and players whose stats could not be
fetched still appear, with every stat cell missing, rather than being
dropped. -/
theorem batch_one_row_per_distinct_player (transport : Str → Nat → HttpResp)
    (roster : List InRow)
    (h1 : ∀ n ∈ rosterNames roster, ((processPlayer transport n).1.getD []).length ≤ 1)
    (out : List OutRow) (h2 : (batch_generate transport roster).outRows = some out) :
    out.map (fun r => (r.name, r.labels)) =
      (firstRows [] (strippedRoster roster)).map (fun lr => (lr.name, lr.labels)) ∧
    ∀ r ∈ out, (processPlayer transport r.name).1 = none → ∀ v ∈ r.stats, v = none := by
  have hout : out = ((firstRows [] (strippedRoster roster)).map
      (joinRow (statCols (allStats transport roster)) (allStats transport roster))).flatten := by
    simp only [batch_generate] at h2
    by_cases hall : (playerResults transport roster).all (fun p => p.2.1 = none)
    · rw [if_pos hall] at h2; cases h2
    · rw [if_neg hall] at h2
      rw [Option.some.injEq] at h2
      exact h2.symm
  have hlen : ∀ x, ((allStats transport roster).filter (fun s => s.player = x)).length ≤ 1 := by
    intro x
    have := statsFilter_len_le_one transport (rosterNames roster) h1
      (firstDedup_nodup _ []) x
    simpa only [allStats, playerResults] using this
  subst hout
  constructor
  · rw [List.map_flatten, List.map_map]
    exact flatten_of_singletons _ _ _
      (fun lr _ => joinRow_single _ (allStats transport roster) lr (hlen lr.name))
  · intro r hr hnone v hv
    rw [List.mem_flatten] at hr
    obtain ⟨l, hl, hrl⟩ := hr
    rw [List.mem_map] at hl
    obtain ⟨lr, hlr, rfl⟩ := hl
    obtain ⟨hname, hlab, hcase⟩ := joinRow_mem _ _ _ _ hrl
    rcases hcase with hstats | ⟨m, hm, hmp, hstats⟩
    · rw [hstats] at hv
      rw [List.mem_map] at hv
      obtain ⟨c, _, rfl⟩ := hv
      rfl
    · simp only [allStats, playerResults] at hm
      obtain ⟨n, _, hpl, rows, hrows, _⟩ := statMem transport (rosterNames roster) m hm
      rw [hname, ← hmp, hpl, hrows] at hnone
      cases hnone

/-- Counterexample to claim C5 as stated: a three-row roster with a
duplicated name yields a two-row output — duplicate occurrences do not
get a row each. -/
theorem batch_duplicates_collapsed_cex :
    ((batch_generate trAll200 roster3).outRows.map List.length) = some 2 ∧
    roster3.length = 3 := by decide

/-- Witness for the amended C5 on the duplicated-name roster. -/
theorem batch_one_row_witness :
    (∀ n ∈ rosterNames roster3, ((processPlayer trAll200 n).1.getD []).length ≤ 1) ∧
    (batch_generate trAll200 roster3).outRows = some outRoster3 ∧
    outRoster3.map (fun r => (r.name, r.labels)) =
      (firstRows [] (strippedRoster roster3)).map (fun lr => (lr.name, lr.labels)) :=
  ⟨by decide, by decide,
    (batch_one_row_per_distinct_player trAll200 roster3 (by decide) outRoster3 (by decide)).1⟩
